import Mathlib

set_option linter.unusedVariables false

/-!
Shallow embedding of `src/pool_switcher.py`, a Selenium-driven pool switcher and
rebooter for Antminer and Whatsminer ASIC devices.

The Selenium driver is an opaque external capability, so every protocol hook
(`_login`, `_goto_pool_page`, `_apply_pool`, `_save`, `_do_reboot`) is modelled
by the list of page-level effects it performs together with an optional raised
exception.  The base-class methods `MinerBase.set_pool` and `MinerBase.reboot`
are translated with their exact `try/except/finally` structure; each invocation
produces an observable event trace that records driver creation (`driverOpen`),
driver teardown (`driverQuit`), log calls and page effects, in program order.
The concrete page-interaction methods of the two subclasses are translated
against an explicit page model (which element identifiers are present, how many
table rows exist, whether waited-for controls become available in time).
-/

set_option autoImplicit false

namespace PoolSwitcher

/-- Mining pool descriptor, mirroring the `Pool` dataclass: `url`, `worker`,
and `password` with default `"x"`. -/
structure Pool where
  url : String
  worker : String
  password : String := "x"
deriving DecidableEq

/-- Exceptions the embedded code can raise.  In the source `slotOutOfRange` and
`fieldNotFound` are both `NoSuchElementException` values, distinguished by their
message and raise site (the bound check in `Antminer._apply_pool`, resp. the
final `raise` in `MinerBase._set_field`); `noSuchElement` is any other
`NoSuchElementException` coming from a bare `find_element`; `timeout` is
Selenium's `TimeoutException` (raised by `_wait`); `unpackError` is the
`ValueError` raised when unpacking fewer than three row inputs; `sessionError`
stands for a failure of `webdriver.Chrome` construction in `_new_driver`. -/
inductive Exn where
  | slotOutOfRange (index : Int) (rows : Nat)
  | fieldNotFound (ids : List String)
  | noSuchElement (what : String)
  | timeout
  | unpackError
  | sessionError
deriving DecidableEq

/-- Which exceptions are `NoSuchElementException` in the source (relevant for
`except NoSuchElementException` clauses). -/
def Exn.isNoSuchElement : Exn → Bool
  | Exn.slotOutOfRange _ _ => true
  | Exn.fieldNotFound _ => true
  | Exn.noSuchElement _ => true
  | Exn.timeout => false
  | Exn.unpackError => false
  | Exn.sessionError => false

/-- Page-level effects performed by hook code through the driver. -/
inductive PageEvent where
  | logError (msg : String)
  | clear (fid : String)
  | sendKeys (fid : String) (val : String)
  | click (target : String)
  | navigate (url : String)
deriving DecidableEq

/-- Observable events of one public-method invocation: driver lifecycle events,
protocol-level log lines, and hook page effects. -/
inductive Event where
  | driverOpen
  | driverQuit
  | logInfo (msg : String)
  | logError (msg : String)
  | logExc (msg : String)
  | page (e : PageEvent)
deriving DecidableEq

/-- Outcome of one `set_pool` / `reboot` invocation, read off the log channel:
`success` for the final `logger.info` line, `unknownPoolKey` for the early
`logger.error` return in `set_pool`, `failed e` for the `logger.exception`
branch that swallowed exception `e`. -/
inductive Outcome where
  | success
  | unknownPoolKey
  | failed (e : Exn)
deriving DecidableEq

/-- A hook invocation: page effects performed, then an optional exception. -/
abbrev HookRes := List PageEvent × Option Exn

/-- Sequential execution of hook calls inside a `try` block: effects accumulate
until the first exception, which aborts the rest. -/
def runSeq : List HookRes → HookRes
  | [] => ([], none)
  | (ev, some e) :: _ => (ev, some e)
  | (ev, none) :: rest =>
    let r := runSeq rest
    (ev ++ r.1, r.2)

/-- Behaviour of the five subclass hooks plus `_new_driver` for one invocation.
`newDriver = some e` means `webdriver.Chrome` construction raised `e`. -/
structure Hooks where
  newDriver : Option Exn := none
  login : HookRes := ([], none)
  gotoPoolPage : HookRes := ([], none)
  applyPool : Pool → Int → HookRes := fun _ _ => ([], none)
  save : HookRes := ([], none)
  doReboot : HookRes := ([], none)

/-- Per-device state built by `MinerBase.__init__` from a config entry. -/
structure MinerSpec where
  name : String
  ip : String
  username : String
  password : String
  pool_map : List (String × Pool)
deriving DecidableEq

/-- Result of one public-method invocation: the outcome, the full event trace,
and whether `self.driver` still references a driver afterwards. -/
structure CallResult where
  outcome : Outcome
  trace : List Event
  driverAfter : Bool
deriving DecidableEq

/-- `MinerBase.set_pool(pool_key, index)`.  Faithful to the source: unknown key
logs an error and returns before any driver is created; otherwise the driver is
created and `_login`, `_goto_pool_page`, `_apply_pool`, `_save` run inside
`try`; any exception is caught and logged by `except Exception`; the `finally`
block quits the driver if and only if `self.driver` is set, and resets it to
`None`.  `driverBefore` is the value of `self.driver` on entry (always `None`
in the program, from `__init__` and every previous `finally`). -/
def set_pool (m : MinerSpec) (h : Hooks) (driverBefore : Bool) (pool_key : String)
    (index : Int) : CallResult :=
  match m.pool_map.lookup pool_key with
  | none =>
    { outcome := Outcome.unknownPoolKey
      trace := [Event.logError "unknown pool key"]
      driverAfter := driverBefore }
  | some pool =>
    match h.newDriver with
    | some e =>
      { outcome := Outcome.failed e
        trace := [Event.logInfo "switching pool", Event.logExc "pool switch FAILED"] ++
          (if driverBefore then [Event.driverQuit] else [])
        driverAfter := false }
    | none =>
      match runSeq [h.login, h.gotoPoolPage, h.applyPool pool index, h.save] with
      | (ev, some e) =>
        { outcome := Outcome.failed e
          trace := [Event.logInfo "switching pool", Event.driverOpen] ++ ev.map Event.page ++
            [Event.logExc "pool switch FAILED", Event.driverQuit]
          driverAfter := false }
      | (ev, none) =>
        { outcome := Outcome.success
          trace := [Event.logInfo "switching pool", Event.driverOpen] ++ ev.map Event.page ++
            [Event.logInfo "pool switch complete", Event.driverQuit]
          driverAfter := false }

/-- `MinerBase.reboot()`: driver creation and `_login`, `_do_reboot` inside
`try`, exception swallowed by `except Exception`, driver quit in `finally`. -/
def reboot (m : MinerSpec) (h : Hooks) (driverBefore : Bool) : CallResult :=
  match h.newDriver with
  | some e =>
    { outcome := Outcome.failed e
      trace := [Event.logInfo "initiating reboot", Event.logExc "reboot FAILED"] ++
        (if driverBefore then [Event.driverQuit] else [])
      driverAfter := false }
  | none =>
    match runSeq [h.login, h.doReboot] with
    | (ev, some e) =>
      { outcome := Outcome.failed e
        trace := [Event.logInfo "initiating reboot", Event.driverOpen] ++ ev.map Event.page ++
          [Event.logExc "reboot FAILED", Event.driverQuit]
        driverAfter := false }
    | (ev, none) =>
      { outcome := Outcome.success
        trace := [Event.logInfo "initiating reboot", Event.driverOpen] ++ ev.map Event.page ++
          [Event.logInfo "reboot triggered", Event.driverQuit]
        driverAfter := false }

/-- The alias loop of `MinerBase._set_field`: try each id in order, return the
first one whose element is found (`find_element` raising
`NoSuchElementException` means absent and the loop continues). -/
def set_field_loop (present : String → Bool) : List String → Option String
  | [] => none
  | fid :: rest => if present fid then some fid else set_field_loop present rest

/-- `MinerBase._set_field(*ids, val)`: clear and type into the first present
id; if the loop exhausts all ids, raise `NoSuchElementException` naming the
whole id tuple (modelled as `Exn.fieldNotFound ids`). -/
def set_field (present : String → Bool) (ids : List String) (val : String) : HookRes :=
  match set_field_loop present ids with
  | some fid => ([PageEvent.clear fid, PageEvent.sendKeys fid val], none)
  | none => ([], some (Exn.fieldNotFound ids))

/-- `Antminer._apply_pool(pool, index)`.  `rows` is the number of `input`
elements found in each discovered `#poolTable tbody tr` row.  The source first
checks `index < 1 or index > len(rows)` and raises the out-of-range
`NoSuchElementException` before touching any field; otherwise it unpacks the
first three inputs of row `index - 1` (a `ValueError` if there are fewer) and
clears/types the pool url, worker and password into them. -/
def antApplyPool (rows : List Nat) (pool : Pool) (index : Int) : HookRes :=
  if index < 1 ∨ (rows.length : Int) < index then
    ([], some (Exn.slotOutOfRange index rows.length))
  else if rows.getD (index - 1).toNat 0 < 3 then
    ([], some Exn.unpackError)
  else
    ([PageEvent.clear "row.addr", PageEvent.sendKeys "row.addr" pool.url,
      PageEvent.clear "row.name", PageEvent.sendKeys "row.name" pool.worker,
      PageEvent.clear "row.pwd", PageEvent.sendKeys "row.pwd" pool.password], none)

/-- The template-substituted element ids tried by `Whatsminer._apply_pool` for
one field: primary `cbid.btminer.{index}` prefix first, then the
`cbid.table.{index}` fallback. -/
def whatsIds (index : Int) (suffix : String) : List String :=
  [s!"cbid.btminer.{index}.{suffix}", s!"cbid.table.{index}.{suffix}"]

/-- `Whatsminer._apply_pool(pool, index)`: three `_set_field` calls (url, user,
pass), each trying the primary id then the fallback id.  There is no bound
check on `index`. -/
def whatsApplyPool (present : String → Bool) (pool : Pool) (index : Int) : HookRes :=
  runSeq
    [ set_field present (whatsIds index "url") pool.url,
      set_field present (whatsIds index "user") pool.worker,
      set_field present (whatsIds index "pass") pool.password ]

/-- Page state relevant to `Antminer._do_reboot`: whether the footer `restart`
button is on the page, and whether the confirmation button `restartFun` becomes
clickable within the 10 second `_wait`. -/
structure AntRebootPage where
  restartPresent : Bool
  restartFunClickable : Bool
deriving DecidableEq

/-- An `except NoSuchElementException` clause around `body`: a raised
`NoSuchElementException` is replaced by the handler's effects; any other
exception propagates. -/
def catchNSE (body : HookRes) (handler : List PageEvent) : HookRes :=
  match body with
  | (ev, some e) => if e.isNoSuchElement then (ev ++ handler, none) else (ev, some e)
  | (ev, none) => (ev, none)

/-- An `except TimeoutException: pass` clause around `body`. -/
def catchTimeout : HookRes → HookRes
  | (ev, some Exn.timeout) => (ev, none)
  | r => r

/-- The `try` body of `Antminer._do_reboot`: find and click `restart` (raising
`NoSuchElementException` if absent), `_wait` up to 10s for `restartFun` to be
clickable (raising `TimeoutException` on expiry), then click it. -/
def antRebootBody (p : AntRebootPage) : HookRes :=
  if p.restartPresent then
    if p.restartFunClickable then
      ([PageEvent.click "restart", PageEvent.click "restartFun"], none)
    else
      ([PageEvent.click "restart"], some Exn.timeout)
  else
    ([], some (Exn.noSuchElement "restart"))

/-- `Antminer._do_reboot()`: the body above under `except
NoSuchElementException`, whose handler only logs an error.  Note the clause
does not catch `TimeoutException`. -/
def antDoReboot (p : AntRebootPage) : HookRes :=
  catchNSE (antRebootBody p) [PageEvent.logError "restart button not found"]

/-- `Whatsminer._do_reboot()`: navigate to the LuCI restart URL, then under
`except TimeoutException: pass` wait for a submit control and click it if it
appears. -/
def whatsDoReboot (ip : String) (submitClickable : Bool) : HookRes :=
  let tryPart : HookRes :=
    if submitClickable then ([PageEvent.click "submit"], none) else ([], some Exn.timeout)
  let caught := catchTimeout tryPart
  (PageEvent.navigate s!"http://{ip}/cgi-bin/luci/admin/status/btminerstatus/restart" :: caught.1,
   caught.2)

/-- Hook set for an `Antminer.reboot()` invocation whose driver creation and
login succeed, against the given reboot-page state. -/
def antRebootHooks (p : AntRebootPage) : Hooks :=
  { doReboot := antDoReboot p }

/-- Hook set for a `Whatsminer.reboot()` invocation whose driver creation and
login succeed, against the given reboot-page state. -/
def whatsRebootHooks (ip : String) (submitClickable : Bool) : Hooks :=
  { doReboot := whatsDoReboot ip submitClickable }

/-- One raw `miners:` config entry as consumed by `build_miners` and
`MinerBase.__init__` (`m.get("type", "antminer")`, `m.get("username", "root")`,
`m.get("password", "admin")`). -/
structure RawCfg where
  name : String
  ip : String
  username : Option String := none
  password : Option String := none
  type? : Option String := none
  pools : List (String × Pool) := []
deriving DecidableEq

/-- `MinerBase.__init__` applied to a raw config entry. -/
def mkMinerSpec (cfg : RawCfg) : MinerSpec :=
  { name := cfg.name
    ip := cfg.ip
    username := cfg.username.getD "root"
    password := cfg.password.getD "admin"
    pool_map := cfg.pools }

/-- The two concrete device families (`Antminer` / `Whatsminer` subclasses). -/
inductive MinerKind where
  | antminer
  | whatsminer
deriving DecidableEq

/-- A built device handle: which subclass was instantiated, with its state. -/
structure Miner where
  kind : MinerKind
  spec : MinerSpec
deriving DecidableEq

/-- Python `str.lower()` as used on the kind strings: lower-case every
character (identical to `String.toLower`, written as a direct map over the
character data so that it evaluates by kernel reduction). -/
def lower (s : String) : String :=
  String.mk (s.data.map Char.toLower)

/-- The kind string `build_miners` computes for an entry:
`m.get("type", "antminer").lower()`. -/
def kind_of (cfg : RawCfg) : String :=
  lower (cfg.type?.getD "antminer")

/-- `build_miners(cfg)`: classify each entry by its lowered kind string,
instantiating `Antminer` or `Whatsminer`; any other kind raises `ValueError`,
aborting the whole build. -/
def build_miners : List RawCfg → Except String (List Miner)
  | [] => Except.ok []
  | m :: rest =>
    if kind_of m = "antminer" then
      match build_miners rest with
      | Except.ok ms => Except.ok ({ kind := MinerKind.antminer, spec := mkMinerSpec m } :: ms)
      | Except.error e => Except.error e
    else if kind_of m = "whatsminer" then
      match build_miners rest with
      | Except.ok ms => Except.ok ({ kind := MinerKind.whatsminer, spec := mkMinerSpec m } :: ms)
      | Except.error e => Except.error e
    else
      Except.error ("unknown miner type " ++ kind_of m)

/-- One device as processed by the on-demand `__main__` loop: its state plus
the hook behaviour of its (separate) `set_pool` and `reboot` sessions. -/
structure DeviceRun where
  spec : MinerSpec
  poolHooks : Hooks
  rebootHooks : Hooks

/-- Results of the two possible operations on one device in the on-demand
loop. -/
structure DeviceResult where
  name : String
  poolResult : Option CallResult
  rebootResult : Option CallResult
deriving DecidableEq

/-- Python truthiness of `args.pool` (`None` and `""` are falsy). -/
def truthy : Option String → Bool
  | none => false
  | some s => !(s == "")

/-- One iteration of the on-demand loop body: `if args.pool:
m.set_pool(args.pool, index=args.index)` then `if args.reboot: m.reboot()`,
threading `self.driver` (reset to `None` by each call's `finally`). -/
def mkDeviceResult (d : DeviceRun) (poolArg : Option String) (idx : Int) (rb : Bool) :
    DeviceResult :=
  let pr : Option CallResult :=
    match poolArg with
    | none => none
    | some pk => if pk == "" then none else some (set_pool d.spec d.poolHooks false pk idx)
  let db1 : Bool := match pr with | some c => c.driverAfter | none => false
  let rr : Option CallResult := if rb then some (reboot d.spec d.rebootHooks db1) else none
  { name := d.spec.name, poolResult := pr, rebootResult := rr }

/-- The on-demand `for m in miners:` loop. -/
def onDemandLoop : List DeviceRun → Option String → Int → Bool → List DeviceResult
  | [], _, _, _ => []
  | d :: rest, p, idx, rb => mkDeviceResult d p idx rb :: onDemandLoop rest p idx rb

/-- The on-demand branch of `__main__`: taken when `args.pool or args.reboot`
is truthy; it runs the loop over every selected device and then calls
`sys.exit(0)` unconditionally.  `none` means the branch is not taken and the
process falls through to the scheduler. -/
def onDemandBranch (ds : List DeviceRun) (poolArg : Option String) (idx : Int) (rb : Bool) :
    Option (List DeviceResult × Nat) :=
  if truthy poolArg || rb then some (onDemandLoop ds poolArg idx rb, 0) else none

/-- Whether an invocation outcome is a failure in the spec's sense (anything
other than a clean success). -/
def Outcome.isFailure : Outcome → Bool
  | Outcome.success => false
  | _ => true

/-- Whether any operation on this device failed. -/
def resultFailed (r : DeviceResult) : Bool :=
  (match r.poolResult with | some c => c.outcome.isFailure | none => false) ||
  (match r.rebootResult with | some c => c.outcome.isFailure | none => false)

/-- Whether any per-device operation in the batch failed. -/
def anyFailure (rs : List DeviceResult) : Bool :=
  rs.any resultFailed

/-- Chronological trace of one device's on-demand iteration: the pool-switch
session strictly before the reboot session. -/
def deviceTrace (r : DeviceResult) : List Event :=
  (match r.poolResult with | some c => c.trace | none => []) ++
  (match r.rebootResult with | some c => c.trace | none => [])

/-- One schedule entry (`{cron, pool_key}`). -/
structure ScheduleEntry where
  cron : String
  pool_key : String
deriving DecidableEq

/-- One firing of the job closure registered by `schedule_jobs` for pool key
`pk`: `for m in miners: m.set_pool(pk)` — every miner of the fleet the job was
built over, with the closure's captured key and the default slot index 1. -/
def scheduledFiring : List (MinerSpec × Hooks) → String → List CallResult
  | [], _ => []
  | mh :: rest, pk => set_pool mh.1 mh.2 false pk 1 :: scheduledFiring rest pk

/-- `schedule_jobs(miners, jobs_cfg, tz)`, with the `BlockingScheduler` and
cron parsing treated as the external trigger service: the list of per-entry
firing results, one run of each registered job (each closure captures its own
entry's `pool_key` via the `pk=pool_key` default argument). -/
def schedule_jobs (miners : List (MinerSpec × Hooks)) (jobs_cfg : List ScheduleEntry) :
    List (List CallResult) :=
  jobs_cfg.map (fun j => scheduledFiring miners j.pool_key)

/-- Event predicate: a driver-creation event. -/
def isOpenEv : Event → Bool
  | Event.driverOpen => true
  | Event.driverQuit => false
  | Event.logInfo _ => false
  | Event.logError _ => false
  | Event.logExc _ => false
  | Event.page _ => false

/-- Event predicate: a driver-teardown event. -/
def isQuitEv : Event → Bool
  | Event.driverOpen => false
  | Event.driverQuit => true
  | Event.logInfo _ => false
  | Event.logError _ => false
  | Event.logExc _ => false
  | Event.page _ => false

/-- Event predicate: the protocol-level log line that starts `reboot()`. -/
def isRebootStartEv : Event → Bool
  | Event.driverOpen => false
  | Event.driverQuit => false
  | Event.logInfo s => s == "initiating reboot"
  | Event.logError _ => false
  | Event.logExc _ => false
  | Event.page _ => false

/-- Number of driver creations in a trace. -/
def countOpens (tr : List Event) : Nat :=
  tr.countP isOpenEv

/-- Number of driver teardowns in a trace. -/
def countQuits (tr : List Event) : Nat :=
  tr.countP isQuitEv

/-- Number of `reboot()` invocations visible in a trace. -/
def countRebootStarts (tr : List Event) : Nat :=
  tr.countP isRebootStartEv

/-- Concatenated trace of a list of invocation results. -/
def firingTrace : List CallResult → List Event
  | [] => []
  | r :: rs => r.trace ++ firingTrace rs

/-- Last event of a trace, if any. -/
def lastEvent : List Event → Option Event
  | [] => none
  | [e] => some e
  | _ :: e :: rest => lastEvent (e :: rest)

/-- A concrete pool preset used by the concrete witnesses. -/
def poolSolo : Pool :=
  { url := "stratum+tcp://solo.example:3333", worker := "worker1", password := "x" }

/-- A concrete miner whose pool map contains the key `"solo"`. -/
def mAnt : MinerSpec :=
  { name := "ant01", ip := "192.168.0.10", username := "root", password := "admin",
    pool_map := [("solo", poolSolo)] }

/-- A concrete miner with an empty pool map. -/
def mEmpty : MinerSpec :=
  { name := "ant02", ip := "192.168.0.11", username := "root", password := "admin",
    pool_map := [] }

/-- Hooks where every step succeeds with no page effects. -/
def hOk : Hooks := {}

/-- Hooks whose login wait times out. -/
def hFailLogin : Hooks :=
  { login := ([], some Exn.timeout) }

/-- A concrete on-demand device run whose pool-switch session fails at login. -/
def runFail : DeviceRun :=
  { spec := mAnt, poolHooks := hFailLogin, rebootHooks := hOk }

/-- A concrete on-demand device run where everything succeeds. -/
def runOk : DeviceRun :=
  { spec := mAnt, poolHooks := hOk, rebootHooks := hOk }

/-- A concrete raw config entry with a mixed-case kind string. -/
def cfgMixed : RawCfg :=
  { name := "a1", ip := "10.0.0.5", type? := some "AntMiner", pools := [] }

/-! ### Helper lemmas -/

theorem countP_map_page_eq_zero (p : Event → Bool) (l : List PageEvent)
    (hp : ∀ x, p (Event.page x) = false) : (l.map Event.page).countP p = 0 := by
  induction l with
  | nil => rfl
  | cons a t ih => simp [List.countP_cons, hp, ih]

theorem lastEvent_append_pair (l : List Event) (a b : Event) :
    lastEvent (l ++ [a, b]) = some b := by
  induction l with
  | nil => rfl
  | cons x t ih =>
    cases t with
    | nil => rfl
    | cons y t' => exact ih

theorem countP_open_page (l : List PageEvent) : l.countP (isOpenEv ∘ Event.page) = 0 := by
  induction l with
  | nil => rfl
  | cons a t ih => simp [List.countP_cons, isOpenEv, Function.comp, ih]

theorem countP_quit_page (l : List PageEvent) : l.countP (isQuitEv ∘ Event.page) = 0 := by
  induction l with
  | nil => rfl
  | cons a t ih => simp [List.countP_cons, isQuitEv, Function.comp, ih]

theorem countP_rebootStart_page (l : List PageEvent) :
    l.countP (isRebootStartEv ∘ Event.page) = 0 := by
  induction l with
  | nil => rfl
  | cons a t ih => simp [List.countP_cons, isRebootStartEv, Function.comp, ih]

theorem set_pool_driverAfter_false (m : MinerSpec) (h : Hooks) (pk : String) (idx : Int) :
    (set_pool m h false pk idx).driverAfter = false := by
  cases hl : m.pool_map.lookup pk with
  | none => simp [set_pool, hl]
  | some pool =>
    cases hd : h.newDriver with
    | some e => simp [set_pool, hl, hd]
    | none =>
      rcases hr : runSeq [h.login, h.gotoPoolPage, h.applyPool pool idx, h.save] with ⟨ev, e?⟩
      cases e? <;> simp [set_pool, hl, hd, hr]

theorem reboot_driverAfter_false (m : MinerSpec) (h : Hooks) :
    (reboot m h false).driverAfter = false := by
  cases hd : h.newDriver with
  | some e => simp [reboot, hd]
  | none =>
    rcases hr : runSeq [h.login, h.doReboot] with ⟨ev, e?⟩
    cases e? <;> simp [reboot, hd, hr]

theorem set_pool_counts (m : MinerSpec) (h : Hooks) (pk : String) (idx : Int) :
    countOpens (set_pool m h false pk idx).trace = countQuits (set_pool m h false pk idx).trace ∧
    countOpens (set_pool m h false pk idx).trace ≤ 1 ∧
    (countOpens (set_pool m h false pk idx).trace = 1 →
      lastEvent (set_pool m h false pk idx).trace = some Event.driverQuit) := by
  cases hl : m.pool_map.lookup pk with
  | none =>
    simp [set_pool, hl, countOpens, countQuits, List.countP_cons, isOpenEv, isQuitEv]
  | some pool =>
    cases hd : h.newDriver with
    | some e =>
      simp [set_pool, hl, hd, countOpens, countQuits, List.countP_cons, isOpenEv, isQuitEv]
    | none =>
      rcases hr : runSeq [h.login, h.gotoPoolPage, h.applyPool pool idx, h.save] with ⟨ev, e?⟩
      cases e? with
      | some e =>
        refine ⟨?_, ?_, fun _ => ?_⟩
        · simp [set_pool, hl, hd, hr, countOpens, countQuits, List.countP_append,
            List.countP_cons, isOpenEv, isQuitEv, countP_open_page, countP_quit_page]
        · simp [set_pool, hl, hd, hr, countOpens, List.countP_append, List.countP_cons,
            isOpenEv, countP_open_page]
        · have ht : (set_pool m h false pk idx).trace =
              ([Event.logInfo "switching pool", Event.driverOpen] ++ ev.map Event.page) ++
                [Event.logExc "pool switch FAILED", Event.driverQuit] := by
            simp [set_pool, hl, hd, hr]
          rw [ht]
          exact lastEvent_append_pair _ _ _
      | none =>
        refine ⟨?_, ?_, fun _ => ?_⟩
        · simp [set_pool, hl, hd, hr, countOpens, countQuits, List.countP_append,
            List.countP_cons, isOpenEv, isQuitEv, countP_open_page, countP_quit_page]
        · simp [set_pool, hl, hd, hr, countOpens, List.countP_append, List.countP_cons,
            isOpenEv, countP_open_page]
        · have ht : (set_pool m h false pk idx).trace =
              ([Event.logInfo "switching pool", Event.driverOpen] ++ ev.map Event.page) ++
                [Event.logInfo "pool switch complete", Event.driverQuit] := by
            simp [set_pool, hl, hd, hr]
          rw [ht]
          exact lastEvent_append_pair _ _ _

theorem reboot_counts (m : MinerSpec) (h : Hooks) :
    countOpens (reboot m h false).trace = countQuits (reboot m h false).trace ∧
    countOpens (reboot m h false).trace ≤ 1 ∧
    (countOpens (reboot m h false).trace = 1 →
      lastEvent (reboot m h false).trace = some Event.driverQuit) := by
  cases hd : h.newDriver with
  | some e =>
    simp [reboot, hd, countOpens, countQuits, List.countP_cons, isOpenEv, isQuitEv]
  | none =>
    rcases hr : runSeq [h.login, h.doReboot] with ⟨ev, e?⟩
    cases e? with
    | some e =>
      refine ⟨?_, ?_, fun _ => ?_⟩
      · simp [reboot, hd, hr, countOpens, countQuits, List.countP_append, List.countP_cons,
          isOpenEv, isQuitEv, countP_open_page, countP_quit_page]
      · simp [reboot, hd, hr, countOpens, List.countP_append, List.countP_cons, isOpenEv,
          countP_open_page]
      · have ht : (reboot m h false).trace =
            ([Event.logInfo "initiating reboot", Event.driverOpen] ++ ev.map Event.page) ++
              [Event.logExc "reboot FAILED", Event.driverQuit] := by
          simp [reboot, hd, hr]
        rw [ht]
        exact lastEvent_append_pair _ _ _
    | none =>
      refine ⟨?_, ?_, fun _ => ?_⟩
      · simp [reboot, hd, hr, countOpens, countQuits, List.countP_append, List.countP_cons,
          isOpenEv, isQuitEv, countP_open_page, countP_quit_page]
      · simp [reboot, hd, hr, countOpens, List.countP_append, List.countP_cons, isOpenEv,
          countP_open_page]
      · have ht : (reboot m h false).trace =
            ([Event.logInfo "initiating reboot", Event.driverOpen] ++ ev.map Event.page) ++
              [Event.logInfo "reboot triggered", Event.driverQuit] := by
          simp [reboot, hd, hr]
        rw [ht]
        exact lastEvent_append_pair _ _ _

theorem runSeq_err (l : List HookRes) (e : Exn) (h : (runSeq l).2 = some e) :
    ∃ hr ∈ l, hr.2 = some e := by
  induction l with
  | nil => simp [runSeq] at h
  | cons a rest ih =>
    rcases a with ⟨ev, e?⟩
    cases e? with
    | some e' =>
      simp [runSeq] at h
      exact ⟨(ev, some e'), by simp, by simp [h]⟩
    | none =>
      simp [runSeq] at h
      rcases ih h with ⟨hr, hmem, he⟩
      exact ⟨hr, by simp [hmem], he⟩

theorem set_field_loop_eq_find (present : String → Bool) (ids : List String) :
    set_field_loop present ids = ids.find? present := by
  induction ids with
  | nil => rfl
  | cons fid rest ih =>
    by_cases hp : present fid = true
    · simp [set_field_loop, hp, List.find?_cons_of_pos]
    · have hp' : present fid = false := by
        revert hp
        cases present fid <;> simp
      simp [set_field_loop, hp', List.find?_cons_of_neg, ih]

theorem set_field_err_shape (present : String → Bool) (ids : List String) (val : String)
    (e : Exn) (h : (set_field present ids val).2 = some e) : e = Exn.fieldNotFound ids := by
  unfold set_field at h
  cases hf : set_field_loop present ids with
  | none =>
    rw [hf] at h
    simp at h
    exact h.symm
  | some fid =>
    rw [hf] at h
    simp at h

theorem set_field_of_find_some (present : String → Bool) (ids : List String) (val : String)
    (fid : String) (hf : ids.find? present = some fid) :
    set_field present ids val = ([PageEvent.clear fid, PageEvent.sendKeys fid val], none) := by
  unfold set_field
  rw [set_field_loop_eq_find, hf]

theorem set_field_of_find_none (present : String → Bool) (ids : List String) (val : String)
    (hf : ids.find? present = none) :
    set_field present ids val = ([], some (Exn.fieldNotFound ids)) := by
  unfold set_field
  rw [set_field_loop_eq_find, hf]

theorem find?_first {α : Type} (p : α → Bool) (pre : List α) (a : α) (post : List α)
    (hpre : ∀ g ∈ pre, p g = false) (ha : p a = true) :
    (pre ++ a :: post).find? p = some a := by
  induction pre with
  | nil => simp [List.find?_cons_of_pos, ha]
  | cons g t ih =>
    have hg : p g = false := hpre g (by simp)
    rw [List.cons_append, List.find?_cons_of_neg _ (by simp [hg])]
    exact ih (fun x hx => hpre x (by simp [hx]))

theorem onDemandLoop_eq_map (ds : List DeviceRun) (p : Option String) (idx : Int) (rb : Bool) :
    onDemandLoop ds p idx rb = ds.map (fun d => mkDeviceResult d p idx rb) := by
  induction ds with
  | nil => rfl
  | cons d rest ih => simp [onDemandLoop, ih]

theorem onDemandLoop_length (ds : List DeviceRun) (p : Option String) (idx : Int) (rb : Bool) :
    (onDemandLoop ds p idx rb).length = ds.length := by
  rw [onDemandLoop_eq_map]
  exact List.length_map _ _

theorem onDemandLoop_append (l1 l2 : List DeviceRun) (p : Option String) (idx : Int) (rb : Bool) :
    onDemandLoop (l1 ++ l2) p idx rb = onDemandLoop l1 p idx rb ++ onDemandLoop l2 p idx rb := by
  induction l1 with
  | nil => rfl
  | cons d t ih => simp [onDemandLoop, ih]

theorem scheduledFiring_eq_map (miners : List (MinerSpec × Hooks)) (pk : String) :
    scheduledFiring miners pk = miners.map (fun mh => set_pool mh.1 mh.2 false pk 1) := by
  induction miners with
  | nil => rfl
  | cons mh rest ih => simp [scheduledFiring, ih]

theorem scheduledFiring_append (l1 l2 : List (MinerSpec × Hooks)) (pk : String) :
    scheduledFiring (l1 ++ l2) pk = scheduledFiring l1 pk ++ scheduledFiring l2 pk := by
  induction l1 with
  | nil => rfl
  | cons mh t ih => simp [scheduledFiring, ih]

theorem set_pool_no_reboot_start (m : MinerSpec) (h : Hooks) (db : Bool) (pk : String)
    (idx : Int) : countRebootStarts (set_pool m h db pk idx).trace = 0 := by
  have h1 : isRebootStartEv (Event.logError "unknown pool key") = false := by decide
  have h2 : isRebootStartEv (Event.logInfo "switching pool") = false := by decide
  have h3 : isRebootStartEv (Event.logExc "pool switch FAILED") = false := by decide
  have h4 : isRebootStartEv (Event.logInfo "pool switch complete") = false := by decide
  cases hl : m.pool_map.lookup pk with
  | none => simp [set_pool, hl, countRebootStarts, List.countP_cons, h1]
  | some pool =>
    cases hd : h.newDriver with
    | some e =>
      cases db <;>
        simp [set_pool, hl, hd, countRebootStarts, List.countP_append, List.countP_cons,
          isRebootStartEv, h2, h3]
    | none =>
      rcases hr : runSeq [h.login, h.gotoPoolPage, h.applyPool pool idx, h.save] with ⟨ev, e?⟩
      cases e? <;>
        simp [set_pool, hl, hd, hr, countRebootStarts, List.countP_append, List.countP_cons,
          isRebootStartEv, countP_rebootStart_page, h2, h3, h4]

theorem firing_no_reboot_start (miners : List (MinerSpec × Hooks)) (pk : String) :
    countRebootStarts (firingTrace (scheduledFiring miners pk)) = 0 := by
  induction miners with
  | nil => rfl
  | cons mh rest ih =>
    have h1 := set_pool_no_reboot_start mh.1 mh.2 false pk 1
    simp only [scheduledFiring, firingTrace, countRebootStarts, List.countP_append] at h1 ih ⊢
    omega

theorem build_miners_ok_iff (cfgs : List RawCfg) :
    (∃ ms, build_miners cfgs = Except.ok ms) ↔
      ∀ cfg ∈ cfgs, kind_of cfg = "antminer" ∨ kind_of cfg = "whatsminer" := by
  induction cfgs with
  | nil => simp [build_miners]
  | cons m rest ih =>
    by_cases h1 : kind_of m = "antminer"
    · rw [show build_miners (m :: rest) =
          (match build_miners rest with
            | Except.ok ms =>
              Except.ok ({ kind := MinerKind.antminer, spec := mkMinerSpec m } :: ms)
            | Except.error e => Except.error e) from by simp [build_miners, h1]]
      cases hb : build_miners rest with
      | ok ms =>
        simp only [List.mem_cons]
        constructor
        · intro _ cfg hcfg
          rcases hcfg with rfl | hcfg
          · exact Or.inl h1
          · exact (ih.mp ⟨ms, hb⟩) cfg hcfg
        · intro _
          exact ⟨_, rfl⟩
      | error e =>
        constructor
        · intro ⟨ms, hms⟩
          simp at hms
        · intro hall
          exfalso
          rcases ih.mpr (fun cfg hc => hall cfg (List.mem_cons_of_mem _ hc)) with ⟨ms, hms⟩
          rw [hms] at hb
          cases hb
    · by_cases h2 : kind_of m = "whatsminer"
      · rw [show build_miners (m :: rest) =
            (match build_miners rest with
              | Except.ok ms =>
                Except.ok ({ kind := MinerKind.whatsminer, spec := mkMinerSpec m } :: ms)
              | Except.error e => Except.error e) from by simp [build_miners, h1, h2]]
        cases hb : build_miners rest with
        | ok ms =>
          simp only [List.mem_cons]
          constructor
          · intro _ cfg hcfg
            rcases hcfg with rfl | hcfg
            · exact Or.inr h2
            · exact (ih.mp ⟨ms, hb⟩) cfg hcfg
          · intro _
            exact ⟨_, rfl⟩
        | error e =>
          constructor
          · intro ⟨ms, hms⟩
            simp at hms
          · intro hall
            exfalso
            rcases ih.mpr (fun cfg hc => hall cfg (List.mem_cons_of_mem _ hc)) with ⟨ms, hms⟩
            rw [hms] at hb
            cases hb
      · rw [show build_miners (m :: rest) = Except.error ("unknown miner type " ++ kind_of m)
            from by simp [build_miners, h1, h2]]
        constructor
        · intro ⟨ms, hms⟩
          simp at hms
        · intro hall
          rcases hall m (by simp) with h | h
          · exact absurd h h1
          · exact absurd h h2

/-! ### Claim theorems -/

/-- Claim C1 (confirmed): for every invocation of `set_pool` or `reboot` — any
hook behaviour, so success, any typed failure, or any exception raised by a
hook — the number of driver creations in the trace equals the number of driver
teardowns, at most one driver is ever created, `self.driver` is `None` when the
invocation returns, and whenever a driver was created the very last action of
the invocation is the teardown.  So any session created during the invocation
is closed exactly once before it returns and no session survives it. -/
theorem claim_C1_session_closed (m : MinerSpec) (h : Hooks) (pool_key : String) (index : Int) :
    countOpens (set_pool m h false pool_key index).trace =
      countQuits (set_pool m h false pool_key index).trace ∧
    countOpens (set_pool m h false pool_key index).trace ≤ 1 ∧
    (set_pool m h false pool_key index).driverAfter = false ∧
    (countOpens (set_pool m h false pool_key index).trace = 1 →
      lastEvent (set_pool m h false pool_key index).trace = some Event.driverQuit) ∧
    countOpens (reboot m h false).trace = countQuits (reboot m h false).trace ∧
    countOpens (reboot m h false).trace ≤ 1 ∧
    (reboot m h false).driverAfter = false ∧
    (countOpens (reboot m h false).trace = 1 →
      lastEvent (reboot m h false).trace = some Event.driverQuit) := by
  obtain ⟨p1, p2, p3⟩ := set_pool_counts m h pool_key index
  obtain ⟨r1, r2, r3⟩ := reboot_counts m h
  exact ⟨p1, p2, set_pool_driverAfter_false m h pool_key index, p3, r1, r2,
    reboot_driverAfter_false m h, r3⟩

/-- Witness for C1 at a concrete successful `set_pool` run. -/
theorem claim_C1_witness :
    lastEvent (set_pool mAnt hOk false "solo" 1).trace = some Event.driverQuit :=
  (claim_C1_session_closed mAnt hOk "solo" 1).2.2.2.1 (by decide)

/-- Claim C2 (confirmed): for every device and every `pool_key` not in its pool
map, `set_pool` reports the unknown-pool-key failure and returns immediately:
the whole trace is the single error-log event (in particular zero session-open
calls) and the driver field is left unchanged. -/
theorem claim_C2_unknown_pool_key (m : MinerSpec) (h : Hooks) (db : Bool) (pool_key : String)
    (index : Int) (hk : m.pool_map.lookup pool_key = none) :
    set_pool m h db pool_key index =
      { outcome := Outcome.unknownPoolKey
        trace := [Event.logError "unknown pool key"]
        driverAfter := db } ∧
    countOpens (set_pool m h db pool_key index).trace = 0 := by
  unfold set_pool
  rw [hk]
  exact ⟨rfl, rfl⟩

/-- Witness for C2: a miner with an empty pool map and the key `"solo"`. -/
theorem claim_C2_witness :
    set_pool mEmpty hOk false "solo" 1 =
      { outcome := Outcome.unknownPoolKey
        trace := [Event.logError "unknown pool key"]
        driverAfter := false } ∧
    countOpens (set_pool mEmpty hOk false "solo" 1).trace = 0 :=
  claim_C2_unknown_pool_key mEmpty hOk false "solo" 1 rfl

/-- Claim C5 counterexample: for an Antminer whose `restart` button is present
but whose confirmation control `restartFun` does not become clickable within
the bounded wait, `reboot` reports a Failed outcome (the `TimeoutException`
from `_wait` is not caught by the `except NoSuchElementException` clause), so
absence of the confirmation control IS treated as a failure on FamilyA,
contradicting the claim. -/
theorem claim_C5_counterexample :
    (reboot mAnt (antRebootHooks { restartPresent := true, restartFunClickable := false })
        false).outcome = Outcome.failed Exn.timeout := rfl

/-- Claim C5 as amended: for FamilyB (Whatsminer) absence of the confirmation
control within the bounded wait is not a failure, and for FamilyA (Antminer)
absence of the restart button itself is not a failure; but for FamilyA, when
the restart button is clicked and the confirmation control does not appear
within the bounded wait the reboot reports a Failed outcome. -/
theorem claim_C5_amended (m : MinerSpec) (ip : String) (c : Bool) :
    (reboot m (whatsRebootHooks ip false) false).outcome = Outcome.success ∧
    (reboot m (antRebootHooks { restartPresent := false, restartFunClickable := c })
        false).outcome = Outcome.success ∧
    (reboot m (antRebootHooks { restartPresent := true, restartFunClickable := false })
        false).outcome = Outcome.failed Exn.timeout :=
  ⟨rfl, rfl, rfl⟩

/-- Claim C10 (confirmed): for a FamilyA (Antminer) device whose restart
control is absent from the page, `reboot` completes with a success outcome and
its trace shows only an error-level log for the missing control; the outcome is
identical to that of a run where the restart was actually triggered, so a
caller cannot distinguish the two. -/
theorem claim_C10_missing_restart_button (m : MinerSpec) (c : Bool) :
    reboot m (antRebootHooks { restartPresent := false, restartFunClickable := c }) false =
      { outcome := Outcome.success
        trace := [Event.logInfo "initiating reboot", Event.driverOpen,
          Event.page (PageEvent.logError "restart button not found"),
          Event.logInfo "reboot triggered", Event.driverQuit]
        driverAfter := false } ∧
    (reboot m (antRebootHooks { restartPresent := false, restartFunClickable := c })
        false).outcome =
      (reboot m (antRebootHooks { restartPresent := true, restartFunClickable := true })
        false).outcome :=
  ⟨rfl, rfl⟩

/-- Claim C3 (confirmed): in the on-demand dispatch with both a pool switch and
a reboot requested, each device's results are a function of that device alone
(the loop is a per-device map, so device k's entry in any surrounding batch is
unaffected by the other devices), the pool switch and the reboot are both
always invoked, replacing a device's pool-switch hooks by arbitrary (e.g.
failing) hooks leaves its reboot result unchanged, and the device's
chronological trace is its pool-switch session strictly before its reboot
session. -/
theorem claim_C3_dispatch_independence (ds₁ ds₂ : List DeviceRun) (d : DeviceRun)
    (altHooks : Hooks) (pk : String) (idx : Int) (hpk : (pk == "") = false) :
    onDemandLoop (ds₁ ++ d :: ds₂) (some pk) idx true =
      onDemandLoop ds₁ (some pk) idx true ++
        mkDeviceResult d (some pk) idx true :: onDemandLoop ds₂ (some pk) idx true ∧
    (mkDeviceResult d (some pk) idx true).poolResult =
      some (set_pool d.spec d.poolHooks false pk idx) ∧
    (mkDeviceResult d (some pk) idx true).rebootResult =
      some (reboot d.spec d.rebootHooks false) ∧
    (mkDeviceResult { spec := d.spec, poolHooks := altHooks, rebootHooks := d.rebootHooks }
        (some pk) idx true).rebootResult =
      (mkDeviceResult d (some pk) idx true).rebootResult ∧
    deviceTrace (mkDeviceResult d (some pk) idx true) =
      (set_pool d.spec d.poolHooks false pk idx).trace ++
        (reboot d.spec d.rebootHooks false).trace := by
  have hmk : ∀ dr : DeviceRun, mkDeviceResult dr (some pk) idx true =
      { name := dr.spec.name
        poolResult := some (set_pool dr.spec dr.poolHooks false pk idx)
        rebootResult := some (reboot dr.spec dr.rebootHooks false) } := by
    intro dr
    unfold mkDeviceResult
    simp [hpk, set_pool_driverAfter_false]
  refine ⟨?_, ?_, ?_, ?_, ?_⟩
  · rw [onDemandLoop_append]
    rfl
  · rw [hmk]
  · rw [hmk]
  · rw [hmk, hmk]
  · rw [hmk]
    simp [deviceTrace]

/-- Witness for C3: a concrete device whose pool switch fails at login still
gets its reboot invoked. -/
theorem claim_C3_witness :
    (mkDeviceResult runFail (some "solo") 1 true).rebootResult =
      some (reboot runFail.spec runFail.rebootHooks false) :=
  (claim_C3_dispatch_independence [] [] runFail hOk "solo" 1 (by decide)).2.2.1

/-- Claim C4 counterexample: a one-device batch whose pool switch fails still
makes the on-demand branch exit with status 0 (the source runs `sys.exit(0)`
unconditionally after the loop), contradicting the claimed non-zero exit on
failure. -/
theorem claim_C4_counterexample :
    (onDemandBranch [runFail] (some "solo") 1 false).map Prod.snd = some 0 ∧
    anyFailure (onDemandLoop [runFail] (some "solo") 1 false) = true :=
  ⟨rfl, rfl⟩

/-- Claim C4 as amended: whenever the on-demand branch is taken it exits with
status 0, regardless of per-device failures; the batch still continues past
failures (one result per selected device). -/
theorem claim_C4_exit_always_zero (ds : List DeviceRun) (poolArg : Option String) (idx : Int)
    (rb : Bool) (rs : List DeviceResult) (code : Nat)
    (h : onDemandBranch ds poolArg idx rb = some (rs, code)) :
    code = 0 ∧ rs.length = ds.length := by
  unfold onDemandBranch at h
  by_cases hg : (truthy poolArg || rb) = true
  · rw [if_pos hg] at h
    simp only [Option.some.injEq, Prod.mk.injEq] at h
    obtain ⟨hrs, hcode⟩ := h
    refine ⟨hcode.symm, ?_⟩
    rw [← hrs]
    exact onDemandLoop_length ds poolArg idx rb
  · rw [if_neg hg] at h
    simp at h

/-- Witness for C4's amended statement at a concrete failing batch. -/
theorem claim_C4_witness :
    (0 : Nat) = 0 ∧ (onDemandLoop [runFail] (some "solo") 1 false).length = [runFail].length :=
  claim_C4_exit_always_zero [runFail] (some "solo") 1 false
    (onDemandLoop [runFail] (some "solo") 1 false) 0 rfl

/-- Claim C6 (confirmed): the slot index is 1-based and the two families fail
differently on bad indices.  `Antminer._apply_pool` raises the out-of-range
error (`SlotOutOfRange`) iff the index lies outside `[1, rowCount]`, and writes
no field in that case; `Whatsminer._apply_pool` can never produce
`SlotOutOfRange`, and when the template-substituted field identifiers for the
index are absent it surfaces the problem as `FieldNotFound`. -/
theorem claim_C6_slot_index_semantics (rows : List Nat) (present : String → Bool) (pool : Pool)
    (index : Int) :
    ((antApplyPool rows pool index).2 = some (Exn.slotOutOfRange index rows.length) ↔
      index < 1 ∨ (rows.length : Int) < index) ∧
    ((index < 1 ∨ (rows.length : Int) < index) → (antApplyPool rows pool index).1 = []) ∧
    (∀ i r, (whatsApplyPool present pool index).2 ≠ some (Exn.slotOutOfRange i r)) ∧
    ((∀ fid ∈ whatsIds index "url", present fid = false) →
      (whatsApplyPool present pool index).2 =
        some (Exn.fieldNotFound (whatsIds index "url"))) := by
  refine ⟨?_, ?_, ?_, ?_⟩
  · unfold antApplyPool
    split_ifs with h1 h2
    · simp [h1]
    · simp [h1]
    · simp [h1]
  · intro hout
    unfold antApplyPool
    rw [if_pos hout]
  · intro i r hc
    unfold whatsApplyPool at hc
    rcases runSeq_err _ _ hc with ⟨hr, hmem, he⟩
    simp only [List.mem_cons, List.mem_singleton, List.not_mem_nil, or_false] at hmem
    rcases hmem with rfl | rfl | rfl <;>
      exact absurd (set_field_err_shape _ _ _ _ he) (by simp)
  · intro hall
    have hnone : (whatsIds index "url").find? present = none :=
      List.find?_eq_none.mpr (fun x hx => by simp [hall x hx])
    unfold whatsApplyPool
    rw [set_field_of_find_none present (whatsIds index "url") pool.url hnone]
    rfl

/-- Witness for C6: an out-of-range index on a one-row Antminer page, and a
Whatsminer page with no matching template ids. -/
theorem claim_C6_witness :
    (antApplyPool [3] poolSolo 2).2 = some (Exn.slotOutOfRange 2 1) ∧
    (whatsApplyPool (fun _ => false) poolSolo 4).2 =
      some (Exn.fieldNotFound (whatsIds 4 "url")) :=
  ⟨(claim_C6_slot_index_semantics [3] (fun _ => false) poolSolo 2).1.mpr (by decide),
   (claim_C6_slot_index_semantics [3] (fun _ => false) poolSolo 4).2.2.2
     (fun fid hmem => rfl)⟩

/-- Claim C7 (confirmed): `_set_field` writes the value through the first alias
whose element exists (earlier aliases win), raises `FieldNotFound` iff every
alias is absent, and succeeds iff at least one alias is present. -/
theorem claim_C7_alias_fallback (present : String → Bool) (ids : List String) (val : String) :
    (∀ pre fid post, ids = pre ++ fid :: post → (∀ g ∈ pre, present g = false) →
        present fid = true →
        set_field present ids val = ([PageEvent.clear fid, PageEvent.sendKeys fid val], none)) ∧
    ((set_field present ids val).2 = some (Exn.fieldNotFound ids) ↔
      ∀ fid ∈ ids, present fid = false) ∧
    ((set_field present ids val).2 = none ↔ ∃ fid ∈ ids, present fid = true) := by
  refine ⟨?_, ?_, ?_⟩
  · intro pre fid post hids hpre hfid
    subst hids
    exact set_field_of_find_some present _ val fid (find?_first present pre fid post hpre hfid)
  · cases hf : ids.find? present with
    | some fid =>
      rw [set_field_of_find_some present ids val fid hf]
      constructor
      · intro hcontra
        simp at hcontra
      · intro hall
        exfalso
        have hp := List.find?_some hf
        rw [hall fid (List.mem_of_find?_eq_some hf)] at hp
        cases hp
    | none =>
      rw [set_field_of_find_none present ids val hf]
      constructor
      · intro _ fid hmem
        have hnp := List.find?_eq_none.mp hf fid hmem
        revert hnp
        cases present fid <;> simp
      · intro _
        rfl
  · cases hf : ids.find? present with
    | some fid =>
      rw [set_field_of_find_some present ids val fid hf]
      constructor
      · intro _
        exact ⟨fid, List.mem_of_find?_eq_some hf, List.find?_some hf⟩
      · intro _
        rfl
    | none =>
      rw [set_field_of_find_none present ids val hf]
      constructor
      · intro hcontra
        simp at hcontra
      · intro ⟨fid, hmem, hp⟩
        exact absurd hp (by simpa using List.find?_eq_none.mp hf fid hmem)

/-- Witness for C7: with aliases `["a", "b", "c"]` and only `"b"` present, the
value is written through `"b"`. -/
theorem claim_C7_witness :
    set_field (fun s => s == "b") ["a", "b", "c"] "v" =
      ([PageEvent.clear "b", PageEvent.sendKeys "b" "v"], none) :=
  (claim_C7_alias_fallback (fun s => s == "b") ["a", "b", "c"] "v").1 ["a"] "b" ["c"] rfl
    (by decide) (by decide)

/-- Claim C8 (confirmed): one firing of a registered schedule job invokes
`set_pool` on every device of the fleet it was registered over (a per-device
map with no filtering), with exactly the entry's pool key and the default slot
index 1; its combined trace contains no `reboot()` invocation; a device whose
hooks fail does not stop the rest of the firing (the surrounding devices'
results are unchanged); and `schedule_jobs` registers one job per entry, each
firing with its own entry's pool key. -/
theorem claim_C8_schedule_semantics (miners : List (MinerSpec × Hooks)) (pk : String)
    (jobs : List ScheduleEntry) (j : ScheduleEntry) :
    scheduledFiring miners pk = miners.map (fun mh => set_pool mh.1 mh.2 false pk 1) ∧
    (scheduledFiring miners pk).length = miners.length ∧
    countRebootStarts (firingTrace (scheduledFiring miners pk)) = 0 ∧
    (∀ pre mh post, scheduledFiring (pre ++ mh :: post) pk =
        scheduledFiring pre pk ++
          set_pool mh.1 mh.2 false pk 1 :: scheduledFiring post pk) ∧
    schedule_jobs miners (j :: jobs) =
      scheduledFiring miners j.pool_key :: schedule_jobs miners jobs := by
  refine ⟨scheduledFiring_eq_map miners pk, ?_, firing_no_reboot_start miners pk, ?_, rfl⟩
  · rw [scheduledFiring_eq_map]
    exact List.length_map _ _
  · intro pre mh post
    rw [scheduledFiring_append]
    rfl

/-- Claim C9 (confirmed): fleet construction lowers the device-kind string
(case-insensitive matching), silently defaults an absent kind to the Antminer
family instead of failing, and aborts the whole build exactly when some entry
has a present, unrecognized kind. -/
theorem claim_C9_kind_defaulting :
    (∀ cfgs : List RawCfg, (∃ ms, build_miners cfgs = Except.ok ms) ↔
        ∀ cfg ∈ cfgs, kind_of cfg = "antminer" ∨ kind_of cfg = "whatsminer") ∧
    (∀ (cfg : RawCfg) (rest : List RawCfg), cfg.type? = none →
        build_miners (cfg :: rest) =
          Except.map (fun ms => { kind := MinerKind.antminer, spec := mkMinerSpec cfg } :: ms)
            (build_miners rest)) ∧
    (∀ (cfg : RawCfg) (rest : List RawCfg) (s : String), cfg.type? = some s →
        lower s = "antminer" →
        build_miners (cfg :: rest) =
          Except.map (fun ms => { kind := MinerKind.antminer, spec := mkMinerSpec cfg } :: ms)
            (build_miners rest)) ∧
    (∀ (cfg : RawCfg) (rest : List RawCfg) (s : String), cfg.type? = some s →
        lower s = "whatsminer" →
        build_miners (cfg :: rest) =
          Except.map (fun ms => { kind := MinerKind.whatsminer, spec := mkMinerSpec cfg } :: ms)
            (build_miners rest)) ∧
    (∀ (cfg : RawCfg) (rest : List RawCfg) (s : String), cfg.type? = some s →
        lower s ≠ "antminer" → lower s ≠ "whatsminer" →
        build_miners (cfg :: rest) = Except.error ("unknown miner type " ++ lower s)) := by
  refine ⟨build_miners_ok_iff, ?_, ?_, ?_, ?_⟩
  · intro cfg rest hnone
    have hk : kind_of cfg = "antminer" := by
      unfold kind_of
      rw [hnone]
      decide
    have hb : build_miners (cfg :: rest) =
        match build_miners rest with
        | Except.ok ms =>
          Except.ok ({ kind := MinerKind.antminer, spec := mkMinerSpec cfg } :: ms)
        | Except.error e => Except.error e := by
      simp [build_miners, hk]
    rw [hb]
    cases build_miners rest <;> simp [Except.map]
  · intro cfg rest s hs hlow
    have hk : kind_of cfg = "antminer" := by
      unfold kind_of
      rw [hs]
      exact hlow
    have hb : build_miners (cfg :: rest) =
        match build_miners rest with
        | Except.ok ms =>
          Except.ok ({ kind := MinerKind.antminer, spec := mkMinerSpec cfg } :: ms)
        | Except.error e => Except.error e := by
      simp [build_miners, hk]
    rw [hb]
    cases build_miners rest <;> simp [Except.map]
  · intro cfg rest s hs hlow
    have hk : kind_of cfg = "whatsminer" := by
      unfold kind_of
      rw [hs]
      exact hlow
    have hb : build_miners (cfg :: rest) =
        match build_miners rest with
        | Except.ok ms =>
          Except.ok ({ kind := MinerKind.whatsminer, spec := mkMinerSpec cfg } :: ms)
        | Except.error e => Except.error e := by
      simp [build_miners, hk]
    rw [hb]
    cases build_miners rest <;> simp [Except.map]
  · intro cfg rest s hs h1 h2
    have hk : kind_of cfg = lower s := by
      unfold kind_of
      rw [hs]
      rfl
    simp [build_miners, hk, h1, h2]

/-- Witness for C9: a mixed-case `"AntMiner"` kind builds the Antminer
family. -/
theorem claim_C9_witness :
    build_miners [cfgMixed] =
      Except.map (fun ms => { kind := MinerKind.antminer, spec := mkMinerSpec cfgMixed } :: ms)
        (build_miners []) :=
  claim_C9_kind_defaulting.2.2.1 cfgMixed [] "AntMiner" rfl (by decide)

end PoolSwitcher
